import Mathlib

/-!
Shallow embedding of the render-output extraction stage of the
blender_generator repository: the function `extract_hdf5_to_pngs`
(src/helpers/hdf5.py, duplicated in src/basic.py), which walks a directory
of per-frame HDF5 containers, encodes the reserved datasets `colors`,
`depth` and `normals` into image artifacts, routes every other dataset
through a generic JSON metadata serializer, and writes one metadata
document per frame.

Machine floats are modelled exactly by rationals plus the special values
NaN and the two infinities; numpy integer casts are modelled as C-style
truncation toward zero followed by reduction modulo the target width.
-/

namespace BlenderGen

/-- Exact model of a floating-point scalar held in an HDF5 dataset: a
rational value, or one of the IEEE special values. -/
inductive FVal where
  | nan
  | posInf
  | negInf
  | finite (q : ℚ)
deriving DecidableEq

/-- Element types of numpy arrays, as far as the extraction code
distinguishes them (it only ever compares against uint8). -/
inductive Dtype where
  | uint8
  | uint16
  | float32
  | float64
  | other (s : String)
deriving DecidableEq

/-- Truncation toward zero, the rounding used by a C cast from a floating
value to an integer type (and hence by numpy astype to integer dtypes). -/
def fptrunc (q : ℚ) : Int := if 0 ≤ q then ⌊q⌋ else -⌊-q⌋

/-- Model of numpy astype(np.uint8) on one element: truncate toward zero
and wrap modulo 256. NaN and the infinities collapse to 0 (the value the
x86 conversion path yields for them after the modular reduction). -/
def castU8 : FVal → Nat
  | FVal.finite q => ((fptrunc q) % 256).toNat
  | _ => 0

/-- Model of numpy astype(np.uint16) on one element: truncate toward zero
and wrap modulo 65536. -/
def castU16 : FVal → Nat
  | FVal.finite q => ((fptrunc q) % 65536).toNat
  | _ => 0

/-- Elementwise multiplication by a positive finite constant, as numpy
broadcasting performs it (special values are preserved). -/
def fscale (c : ℚ) : FVal → FVal
  | FVal.finite q => FVal.finite (q * c)
  | x => x

/-- Elementwise addition of 1, as in the normals branch (data + 1). -/
def fshift1 : FVal → FVal
  | FVal.finite q => FVal.finite (q + 1)
  | x => x

/-- np.nan_to_num with nan=0.0, posinf=65.535, neginf=0.0: every element
becomes a finite rational. -/
def nanToNum : FVal → ℚ
  | FVal.nan => 0
  | FVal.posInf => 65.535
  | FVal.negInf => 0
  | FVal.finite q => q

/-- np.clip(x, 0, 65.535). -/
def clipDepth (q : ℚ) : ℚ := min (max q 0) 65.535

/-- One element of the depth branch: nan_to_num, clip to [0, 65.535],
scale by 1000, cast to uint16. -/
def depthPixel (x : FVal) : Nat :=
  castU16 (FVal.finite (clipDepth (nanToNum x) * 1000))

/-- One element of the non-uint8 colors branch: (data * 255) cast to
uint8. -/
def colorPixelScaled (x : FVal) : Nat := castU8 (fscale 255 x)

/-- One element of the normals branch: ((data + 1) * 127.5) cast to
uint8. -/
def normalPixel (x : FVal) : Nat := castU8 (fscale 127.5 (fshift1 x))

/-- A numpy array as read from an HDF5 dataset: its shape, element type,
row-major element list, and whether the tolist() conversion succeeds
(it can raise ValueError or TypeError for exotic arrays, which the code
catches). -/
structure NpArray where
  shape : List Nat
  dtype : Dtype
  data : List FVal
  tolistOk : Bool
deriving DecidableEq

/-- numpy size: the product of the dimensions. -/
def NpArray.size (a : NpArray) : Nat := a.shape.prod

/-- The JSON-representable values that can appear in a frame metadata
document. Non-finite numbers are kept, since the Python json module
serializes them as NaN and Infinity literals. -/
inductive Json where
  | null
  | bool (b : Bool)
  | num (x : FVal)
  | str (s : String)
  | arr (elems : List Json)

mutual

/-- Flatten a JSON tree to its list of leaves, depth-first. Used to state
the round-trip property of small-array serialization. -/
def flatJson : Json → List Json
  | Json.arr l => flatList l
  | j => [j]

/-- Flatten each tree in a list and concatenate. -/
def flatList : List Json → List Json
  | [] => []
  | j :: rest => flatJson j ++ flatList rest

end

/-- Split a list into consecutive chunks of n elements (the last chunk may
be shorter); chunk size 0 gives no chunks. -/
def chunkList {α : Type} (n : Nat) (l : List α) : List (List α) :=
  if _h : n = 0 ∨ l.isEmpty then []
  else (l.take n) :: chunkList n (l.drop n)
termination_by l.length
decreasing_by
  simp [not_or, List.isEmpty_iff] at _h
  have hl : 0 < l.length := List.length_pos.mpr _h.2
  simp [List.length_drop]
  omega

/-- The nested list produced by numpy tolist() on a row-major element list
with the given shape: a 0-dimensional array yields its single scalar, and
each further dimension groups the flat data into equal chunks. -/
def nestJson : List Nat → List FVal → Json
  | [], flat =>
    match flat with
    | [x] => Json.num x
    | _ => Json.null
  | _ :: dims, flat => Json.arr ((chunkList dims.prod flat).map (fun c => nestJson dims c))

/-- Python repr of a shape tuple, as interpolated by the f-string in the
descriptor fallback: (), (5,), (2, 3), ... -/
def shapeRepr : List Nat → String
  | [] => "()"
  | [n] => "(" ++ toString n ++ ",)"
  | l => "(" ++ String.intercalate ", " (l.map toString) ++ ")"

/-- Python str of a numpy dtype, as interpolated by the f-string. -/
def dtypeName : Dtype → String
  | Dtype.uint8 => "uint8"
  | Dtype.uint16 => "uint16"
  | Dtype.float32 => "float32"
  | Dtype.float64 => "float64"
  | Dtype.other s => s

/-- The descriptor string emitted for large or unconvertible arrays. -/
def descriptor (a : NpArray) : String :=
  "Array shape: " ++ shapeRepr a.shape ++ ", dtype: " ++ dtypeName a.dtype

/-- Model of ndarray.tolist(): the nested list when the conversion
succeeds, none when it raises. -/
def NpArray.tolist (a : NpArray) : Option Json :=
  if a.tolistOk then some (nestJson a.shape a.data) else none

/-- A value read from one HDF5 dataset by f[key][()]. Scalar datasets
surface as 0-dimensional numpy scalars (modelled under obj), string
datasets as Python bytes. The Option fields record the outcome of the
corresponding fallible library call: utf-8 decoding for bytes; for other
objects, the tolist() call (none when it raises TypeError or ValueError)
and the json.dumps serializability test. -/
inductive PyVal where
  | arr (a : NpArray)
  | bytes (len : Nat) (decoded : Option String)
  | obj (hasTolist : Bool) (tolistRes : Option Json) (asJson : Option Json) (strRepr : String)

/-- Number of dimensions seen by len(data.shape); non-array scalars have
shape () in numpy, hence rank 0. -/
def PyVal.ndim : PyVal → Nat
  | PyVal.arr a => a.shape.length
  | _ => 0

/-- The generic metadata serializer: the else-branch of the dataset loop.
Small numpy arrays become nested lists when tolist() succeeds, otherwise a
shape/dtype descriptor; bytes are utf-8 decoded or described by length;
any other value tries tolist(), then direct JSON inclusion, then str(). -/
def serializeGeneric : PyVal → Json
  | PyVal.arr a =>
    if a.size < 100 then
      match a.tolist with
      | some j => j
      | none => Json.str (descriptor a)
    else Json.str (descriptor a)
  | PyVal.bytes len decoded =>
    match decoded with
    | some s => Json.str s
    | none => Json.str ("Binary data (" ++ toString len ++ " bytes)")
  | PyVal.obj hasTolist tolistRes asJson strRepr =>
    if hasTolist then
      match tolistRes with
      | some j => j
      | none => Json.str strRepr
    else
      match asJson with
      | some j => j
      | none => Json.str strRepr

/-- Pixel data of the colors branch: identity for uint8 arrays (castU8 is
the identity on stored uint8 values), otherwise multiply by 255 and cast. -/
def colorEncode (a : NpArray) : List Nat :=
  if a.dtype = Dtype.uint8 then a.data.map castU8
  else a.data.map colorPixelScaled

/-- An emitted image file: its name and its encoded pixel values. -/
structure Artifact where
  file : String
  pixels : List Nat

/-- One iteration of the dataset loop: the artifacts written and the
metadata assignments made for the dataset key with value data. Reserved
keys are guarded by an exact rank check with no else branch, so a
mismatched rank produces nothing at all. -/
def processDataset (frame key : String) (data : PyVal) :
    List Artifact × List (String × Json) :=
  if key = "colors" then
    match data with
    | PyVal.arr a =>
      if a.shape.length = 3 then
        ([⟨"rgb_" ++ frame ++ ".png", colorEncode a⟩],
         [(key, Json.str ("rgb_" ++ frame ++ ".png"))])
      else ([], [])
    | _ => ([], [])
  else if key = "depth" then
    match data with
    | PyVal.arr a =>
      if a.shape.length = 2 then
        ([⟨"depth_" ++ frame ++ ".png", a.data.map depthPixel⟩],
         [(key, Json.str ("depth_" ++ frame ++ ".png")),
          (key ++ "_scale", Json.num (FVal.finite 0.001))])
      else ([], [])
    | _ => ([], [])
  else if key = "normals" then
    match data with
    | PyVal.arr a =>
      if a.shape.length = 3 then
        ([⟨"normals_" ++ frame ++ ".png", a.data.map normalPixel⟩],
         [(key, Json.str ("normals_" ++ frame ++ ".png"))])
      else ([], [])
    | _ => ([], [])
  else
    ([], [(key, serializeGeneric data)])

/-- One HDF5 container file: its base name, whether h5py can open it
(false models an unreadable or corrupt file, where h5py.File raises), and
its name-to-value dataset mapping in iteration order. -/
structure Container where
  filename : String
  readable : Bool
  datasets : List (String × PyVal)

/-- Frame identifier: basename split at the first dot, index 0. -/
def frameIdxOf (filename : String) : String :=
  ((filename.splitOn ".").headD "")

/-- Everything produced for one frame: its identifier, the image
artifacts, and the assignments of the metadata document in order. -/
structure FrameOutput where
  frame : String
  artifacts : List Artifact
  metadata : List (String × Json)

/-- Processing of one readable container: fold the dataset loop, then
write the metadata document. -/
def processContainer (c : Container) : FrameOutput :=
  let frame := frameIdxOf c.filename
  let r := c.datasets.foldl
    (fun acc kv =>
      let s := processDataset frame kv.1 kv.2
      (acc.1 ++ s.1, acc.2 ++ s.2))
    ([], [])
  ⟨frame, r.1, r.2⟩

/-- The input side of a run: whether the container directory exists, and
the containers matched by the *.hdf5 pattern when it does. -/
structure InputDir where
  dirExists : Bool
  containers : List Container

/-- glob.glob on dir/*.hdf5: returns the matches, and the empty list
without raising when the directory does not exist. -/
def globHdf5 (d : InputDir) : List Container :=
  if d.dirExists then d.containers else []

/-- The only exception the loop body can raise at container granularity:
h5py.File failing on an unreadable file. It is not caught anywhere. -/
inductive RunError where
  | containerReadError (filename : String)

/-- Result of a run: the frame outputs produced, the uncaught exception if
one aborted the loop, and the reported container count (the final print,
reached only when no exception escaped). -/
structure RunResult where
  outputs : List FrameOutput
  err : Option RunError
  reportedCount : Option Nat

/-- The container loop: process readable containers in order; the first
unreadable one raises, ending the run with no further processing. -/
def runGo : List Container → List FrameOutput × Option RunError
  | [] => ([], none)
  | c :: rest =>
    if c.readable then
      let r := runGo rest
      (processContainer c :: r.1, r.2)
    else ([], some (RunError.containerReadError c.filename))

/-- The whole extract_hdf5_to_pngs run on an input directory. -/
def runExtract (d : InputDir) : RunResult :=
  let files := globHdf5 d
  let r := runGo files
  ⟨r.1, r.2, if r.2.isNone then some files.length else none⟩

/-- Boolean form of the shape guard the dispatcher applies to the three
reserved dataset names. -/
def shapeOk (k : String) (v : PyVal) : Bool :=
  (k != "colors" || v.ndim == 3) &&
  (k != "depth" || v.ndim == 2) &&
  (k != "normals" || v.ndim == 3)

/-! Helper lemmas shared by the claim theorems. -/

lemma fptrunc_of_nonneg {q : ℚ} (h : 0 ≤ q) : fptrunc q = ⌊q⌋ := if_pos h

lemma floor_le_ofNat {q : ℚ} {n : Nat} (h : q ≤ (n : ℚ)) : ⌊q⌋ ≤ (n : Int) := by
  have := Int.floor_le_floor h
  simpa using this

lemma castU8_finite_eq {q : ℚ} (h0 : 0 ≤ q) (h1 : q ≤ 255) :
    ((castU8 (FVal.finite q) : Nat) : ℤ) = ⌊q⌋ := by
  have hf : fptrunc q = ⌊q⌋ := fptrunc_of_nonneg h0
  have hge : 0 ≤ ⌊q⌋ := Int.floor_nonneg.mpr h0
  have hle : ⌊q⌋ ≤ (255 : Int) := by
    have : q ≤ ((255 : Nat) : ℚ) := by norm_num [h1]
    simpa using floor_le_ofNat this
  simp only [castU8, hf]
  rw [Int.emod_eq_of_lt hge (by omega)]
  exact Int.toNat_of_nonneg hge

lemma castU16_finite_eq {q : ℚ} (h0 : 0 ≤ q) (h1 : q ≤ 65535) :
    ((castU16 (FVal.finite q) : Nat) : ℤ) = ⌊q⌋ := by
  have hf : fptrunc q = ⌊q⌋ := fptrunc_of_nonneg h0
  have hge : 0 ≤ ⌊q⌋ := Int.floor_nonneg.mpr h0
  have hle : ⌊q⌋ ≤ (65535 : Int) := by
    have : q ≤ ((65535 : Nat) : ℚ) := by norm_num [h1]
    simpa using floor_le_ofNat this
  simp only [castU16, hf]
  rw [Int.emod_eq_of_lt hge (by omega)]
  exact Int.toNat_of_nonneg hge

lemma castU8_of_natCast {n : Nat} (h : n < 256) : castU8 (FVal.finite (n : ℚ)) = n := by
  have h0 : (0 : ℚ) ≤ (n : ℚ) := by positivity
  have h1 : ((n : ℚ)) ≤ 255 := by
    have : ((n : ℚ)) ≤ ((255 : Nat) : ℚ) := by exact_mod_cast Nat.le_of_lt_succ h
    simpa using this
  have := castU8_finite_eq h0 h1
  have hfl : ⌊((n : ℚ))⌋ = (n : Int) := Int.floor_natCast n
  omega

lemma depthPixel_le (x : FVal) : depthPixel x ≤ 65535 := by
  have h0 : 0 ≤ clipDepth (nanToNum x) := by
    simp only [clipDepth, le_min_iff, le_max_iff]
    exact ⟨Or.inr le_rfl, by norm_num⟩
  have h1 : clipDepth (nanToNum x) ≤ 65.535 := min_le_right _ _
  have h0m : (0 : ℚ) ≤ clipDepth (nanToNum x) * 1000 := by positivity
  have h1m : clipDepth (nanToNum x) * 1000 ≤ 65535 := by nlinarith
  have := castU16_finite_eq h0m h1m
  have hfl : (0 : Int) ≤ ⌊clipDepth (nanToNum x) * 1000⌋ := Int.floor_nonneg.mpr h0m
  have hub : ⌊clipDepth (nanToNum x) * 1000⌋ ≤ (65535 : Int) := by
    have hq : clipDepth (nanToNum x) * 1000 ≤ ((65535 : Nat) : ℚ) := by norm_num [h1m]
    simpa using floor_le_ofNat hq
  simp only [depthPixel] at this ⊢
  omega

lemma foldl_pair_append {α β γ : Type} (f : α → List β × List γ) :
    ∀ (l : List α) (a : List β) (b : List γ),
      l.foldl (fun acc kv => (acc.1 ++ (f kv).1, acc.2 ++ (f kv).2)) (a, b) =
        (a ++ (l.map (fun kv => (f kv).1)).flatten,
         b ++ (l.map (fun kv => (f kv).2)).flatten) := by
  intro l
  induction l with
  | nil => intro a b; simp
  | cons x xs ih =>
    intro a b
    simp only [List.foldl_cons, List.map_cons, List.flatten_cons]
    rw [ih]
    simp [List.append_assoc]

lemma processContainer_metadata (c : Container) :
    (processContainer c).metadata =
      (c.datasets.map
        (fun kv => (processDataset (frameIdxOf c.filename) kv.1 kv.2).2)).flatten := by
  have h := foldl_pair_append
    (fun kv : String × PyVal => processDataset (frameIdxOf c.filename) kv.1 kv.2)
    c.datasets [] []
  simp only [processContainer]
  rw [h]
  simp

lemma shapeOk_elim {k : String} {v : PyVal} (h : shapeOk k v = true) :
    (k = "colors" → v.ndim = 3) ∧ (k = "depth" → v.ndim = 2) ∧
      (k = "normals" → v.ndim = 3) := by
  simp only [shapeOk, Bool.and_eq_true, Bool.or_eq_true, bne_iff_ne, ne_eq,
    beq_iff_eq, decide_eq_true_eq] at h
  obtain ⟨⟨h1, h2⟩, h3⟩ := h
  refine ⟨fun hk => ?_, fun hk => ?_, fun hk => ?_⟩
  · rcases h1 with h | h
    · exact absurd hk h
    · exact h
  · rcases h2 with h | h
    · exact absurd hk h
    · exact h
  · rcases h3 with h | h
    · exact absurd hk h
    · exact h

lemma ndim_three_arr {v : PyVal} (h : v.ndim = 3) :
    ∃ a : NpArray, v = PyVal.arr a ∧ a.shape.length = 3 := by
  cases v with
  | arr a => exact ⟨a, rfl, h⟩
  | bytes l d => simp [PyVal.ndim] at h
  | obj a b cc dd => simp [PyVal.ndim] at h

lemma ndim_two_arr {v : PyVal} (h : v.ndim = 2) :
    ∃ a : NpArray, v = PyVal.arr a ∧ a.shape.length = 2 := by
  cases v with
  | arr a => exact ⟨a, rfl, h⟩
  | bytes l d => simp [PyVal.ndim] at h
  | obj a b cc dd => simp [PyVal.ndim] at h

lemma processDataset_keys (frame k : String) (v : PyVal) (h : shapeOk k v = true) :
    ((processDataset frame k v).2).map Prod.fst =
      if k = "depth" then [k, k ++ "_scale"] else [k] := by
  obtain ⟨hco, hde, hno⟩ := shapeOk_elim h
  by_cases hc : k = "colors"
  · subst hc
    obtain ⟨a, rfl, h3⟩ := ndim_three_arr (hco rfl)
    simp [processDataset, h3]
  · by_cases hd : k = "depth"
    · subst hd
      obtain ⟨a, rfl, h2⟩ := ndim_two_arr (hde rfl)
      simp [processDataset, h2]
    · by_cases hn : k = "normals"
      · subst hn
        obtain ⟨a, rfl, h3⟩ := ndim_three_arr (hno rfl)
        simp [processDataset, h3]
      · simp [processDataset, hc, hd, hn]

lemma count_metadata_keys (frame : String) :
    ∀ (ds : List (String × PyVal)), (∀ kv ∈ ds, shapeOk kv.1 kv.2 = true) →
    ∀ (k : String), k ≠ "depth_scale" →
      (((ds.map (fun kv => (processDataset frame kv.1 kv.2).2)).flatten).map Prod.fst).count k
        = (ds.map Prod.fst).count k := by
  intro ds
  induction ds with
  | nil => intro _ k _; simp
  | cons kv rest ih =>
    intro hws k hk
    simp only [List.map_cons, List.flatten_cons, List.map_append, List.count_append]
    rw [processDataset_keys frame kv.1 kv.2 (hws kv (by simp)),
      ih (fun x hx => hws x (by simp [hx])) k hk]
    have hds : ("depth" ++ "_scale" : String) = "depth_scale" := rfl
    by_cases hd : kv.1 = "depth"
    · rw [if_pos hd, hd, hds]
      simp only [List.count_cons, List.count_nil, beq_iff_eq]
      rw [if_neg (fun h : "depth_scale" = k => hk h.symm)]
      generalize (if ("depth" = k) then 1 else 0) = t
      omega
    · rw [if_neg hd]
      simp only [List.count_cons, List.count_nil, beq_iff_eq]
      generalize (if (kv.1 = k) then 1 else 0) = t
      omega

lemma chunkList_nil {α : Type} (n : Nat) : chunkList n ([] : List α) = [] := by
  rw [chunkList]
  simp

lemma count_scale_keys (frame : String) :
    ∀ (ds : List (String × PyVal)), (∀ kv ∈ ds, shapeOk kv.1 kv.2 = true) →
      "depth_scale" ∉ ds.map Prod.fst →
      (((ds.map (fun kv => (processDataset frame kv.1 kv.2).2)).flatten).map Prod.fst).count
          "depth_scale"
        = (ds.map Prod.fst).count "depth" := by
  intro ds
  induction ds with
  | nil => intro _ _; simp
  | cons kv rest ih =>
    intro hws hns
    simp only [List.map_cons, List.flatten_cons, List.map_append, List.count_append]
    have hns1 : kv.1 ≠ "depth_scale" := by
      intro h
      exact hns (by simp [h])
    have hns2 : "depth_scale" ∉ rest.map Prod.fst := by
      intro h
      exact hns (by simp [h])
    rw [processDataset_keys frame kv.1 kv.2 (hws kv (by simp)),
      ih (fun x hx => hws x (by simp [hx])) hns2]
    have hds : ("depth" ++ "_scale" : String) = "depth_scale" := rfl
    by_cases hd : kv.1 = "depth"
    · rw [if_pos hd, hd, hds]
      simp [List.count_cons]
      omega
    · rw [if_neg hd]
      simp only [List.count_cons, List.count_nil, beq_iff_eq]
      rw [if_neg hns1, if_neg hd]
      omega

lemma mem_metadata_of_aux (c : Container) (k : String) (v : PyVal)
    (hin : (k, v) ∈ c.datasets) (h1 : k ≠ "colors") (h2 : k ≠ "depth")
    (h3 : k ≠ "normals") :
    (k, serializeGeneric v) ∈ (processContainer c).metadata := by
  rw [processContainer_metadata]
  refine List.mem_flatten.mpr ⟨[(k, serializeGeneric v)], ?_, by simp⟩
  refine List.mem_map.mpr ⟨(k, v), hin, ?_⟩
  simp [processDataset, h1, h2, h3]

lemma chunkList_flatten {α : Type} (n : Nat) (hn : n ≠ 0) :
    ∀ l : List α, (chunkList n l).flatten = l := by
  intro l
  induction l using chunkList.induct n with
  | case1 l h =>
    rcases h with h | h
    · exact absurd h hn
    · rw [chunkList, dif_pos (Or.inr h)]
      simp [List.isEmpty_iff] at h
      simp [h]
  | case2 l h ih =>
    rw [chunkList, dif_neg h]
    simp only [List.flatten_cons, ih]
    exact List.take_append_drop n l

lemma chunkList_chunk_length {α : Type} (n : Nat) (_hn : n ≠ 0) :
    ∀ l : List α, n ∣ l.length → ∀ c ∈ chunkList n l, c.length = n := by
  intro l
  induction l using chunkList.induct n with
  | case1 l h =>
    intro hdvd c hc
    rw [chunkList, dif_pos h] at hc
    simp at hc
  | case2 l h ih =>
    intro hdvd c hc
    rw [chunkList, dif_neg h] at hc
    simp only [not_or, List.isEmpty_iff] at h
    have hl : 0 < l.length := List.length_pos.mpr h.2
    have hnle : n ≤ l.length := Nat.le_of_dvd hl hdvd
    rcases List.mem_cons.mp hc with hc | hc
    · subst hc
      simp [List.length_take]
      omega
    · refine ih ?_ c hc
      simpa [List.length_drop] using Nat.dvd_sub' hdvd dvd_rfl

lemma flatList_eq_flatten : ∀ L : List Json, flatList L = (L.map flatJson).flatten := by
  intro L
  induction L with
  | nil => simp [flatList]
  | cons j r ihr => simp [flatList, ihr]

lemma flatJson_nest (shape : List Nat) :
    ∀ flat : List FVal, flat.length = shape.prod →
      flatJson (nestJson shape flat) = flat.map Json.num := by
  induction shape with
  | nil =>
    intro flat hlen
    simp only [List.prod_nil] at hlen
    obtain ⟨x, rfl⟩ := List.length_eq_one.mp hlen
    simp [nestJson, flatJson]
  | cons d dims ih =>
    intro flat hlen
    simp only [List.prod_cons] at hlen
    rcases Nat.eq_zero_or_pos dims.prod with h0 | h0
    · rw [h0, Nat.mul_zero] at hlen
      have hf : flat = [] := List.eq_nil_of_length_eq_zero hlen
      subst hf
      rw [nestJson, chunkList_nil]
      simp [flatJson, flatList]
    · rw [nestJson]
      rw [show flatJson (Json.arr ((chunkList dims.prod flat).map
            (fun c => nestJson dims c))) =
          flatList ((chunkList dims.prod flat).map (fun c => nestJson dims c)) from rfl]
      rw [flatList_eq_flatten, List.map_map]
      have hchunk : ∀ c ∈ chunkList dims.prod flat, c.length = dims.prod :=
        chunkList_chunk_length dims.prod (by omega) flat
          ⟨d, by rw [hlen]; exact Nat.mul_comm d dims.prod⟩
      have hmap : (chunkList dims.prod flat).map (flatJson ∘ fun c => nestJson dims c)
          = (chunkList dims.prod flat).map (fun c => c.map Json.num) := by
        refine List.map_congr_left ?_
        intro c hc
        exact ih c (by rw [hchunk c hc])
      rw [hmap, ← List.map_flatten, chunkList_flatten dims.prod (by omega) flat]

/-! Concrete inputs used by counterexamples and witnesses. -/

/-- A rank-2 array arriving under the reserved name colors. -/
def badColorsArr : NpArray :=
  ⟨[2, 2], Dtype.float64,
   [FVal.finite 0, FVal.finite 0, FVal.finite 0, FVal.finite 0], true⟩

/-- A readable container whose only dataset is a rank-2 colors array. -/
def badColorsContainer : Container :=
  ⟨"7.hdf5", true, [("colors", PyVal.arr badColorsArr)]⟩

/-- An input directory that does not exist. -/
def missingDir : InputDir := ⟨false, []⟩

/-- An unreadable (corrupt) container file. -/
def corruptContainer : Container := ⟨"0.hdf5", false, []⟩

/-- A readable container with one auxiliary bytes dataset. -/
def goodContainer : Container :=
  ⟨"1.hdf5", true, [("note", PyVal.bytes 2 (some "hi"))]⟩

/-- A directory whose first container is corrupt and whose second is fine. -/
def dirC9 : InputDir := ⟨true, [corruptContainer, goodContainer]⟩

/-! Claim theorems. -/

/-- C1, counterexample: the container 7.hdf5 holds exactly one dataset,
named colors, with array rank 2; its frame metadata document comes out
empty, so the dataset name colors does not appear as a key at all. This
refutes the claim that every dataset name present in a container appears
exactly once as a key in that frame's metadata document. -/
theorem C1_counterexample :
    badColorsContainer.datasets.map Prod.fst = ["colors"] ∧
    (processContainer badColorsContainer).metadata = [] :=
  ⟨rfl, rfl⟩

/-- C1, amended: provided every reserved-name dataset in the container
passes its rank guard (colors and normals rank 3, depth rank 2), dataset
names are unique, and no dataset is itself named depth_scale, then each
dataset name appears exactly once as a metadata key, any other key except
depth_scale appears zero times, and depth_scale appears exactly as often
as a depth dataset is present. Reserved-name datasets failing the rank
guard are dropped entirely (see the counterexample), so the original
unconditional claim is false. -/
theorem C1_metadata_keys (c : Container)
    (hws : ∀ kv ∈ c.datasets, shapeOk kv.1 kv.2 = true)
    (hnodup : (c.datasets.map Prod.fst).Nodup)
    (hns : "depth_scale" ∉ c.datasets.map Prod.fst)
    (k : String) (hk : k ∈ c.datasets.map Prod.fst)
    (k2 : String) (hk2 : k2 ∉ c.datasets.map Prod.fst)
    (hk2s : k2 ≠ "depth_scale") :
    ((processContainer c).metadata.map Prod.fst).count k = 1 ∧
    ((processContainer c).metadata.map Prod.fst).count k2 = 0 ∧
    ((processContainer c).metadata.map Prod.fst).count "depth_scale" =
      (c.datasets.map Prod.fst).count "depth" := by
  have hkne : k ≠ "depth_scale" := fun h => hns (h ▸ hk)
  rw [processContainer_metadata]
  refine ⟨?_, ?_, ?_⟩
  · rw [count_metadata_keys _ _ hws k hkne]
    exact List.count_eq_one_of_mem hnodup hk
  · rw [count_metadata_keys _ _ hws k2 hk2s]
    exact List.count_eq_zero_of_not_mem hk2
  · exact count_scale_keys _ _ hws hns

/-- A well-shaped container used to witness the amended C1 statement. -/
def wsContainer : Container :=
  ⟨"3.hdf5", true,
   [("depth", PyVal.arr ⟨[1, 1], Dtype.float32, [FVal.finite 1], true⟩),
    ("custom", PyVal.obj false none (some (Json.num (FVal.finite 42))) "42")]⟩

/-- C1 witness: the amended statement instantiated on a concrete
well-shaped container. -/
theorem C1_metadata_keys_witness :
    ((processContainer wsContainer).metadata.map Prod.fst).count "depth" = 1 ∧
    ((processContainer wsContainer).metadata.map Prod.fst).count "other" = 0 ∧
    ((processContainer wsContainer).metadata.map Prod.fst).count "depth_scale" =
      (wsContainer.datasets.map Prod.fst).count "depth" :=
  C1_metadata_keys wsContainer (by decide) (by decide) (by decide)
    "depth" (by decide) "other" (by decide) (by decide)

/-- C2, counterexample: a colors dataset of rank 2 does not fall through
to the generic metadata serializer; the dispatcher produces no artifact
and no metadata entry at all, so the raw value is not captured. -/
theorem C2_counterexample :
    processDataset "7" "colors" (PyVal.arr badColorsArr) = ([], []) ∧
    badColorsArr.shape.length = 2 :=
  ⟨rfl, rfl⟩

/-- C2, amended: for every dataset under a reserved name whose array rank
fails the guard (rank 3 for colors and normals, rank 2 for depth), the
dataset is silently dropped: the loop body emits no artifact and records
no metadata entry of any kind, rather than degrading to the generic
serializer. -/
theorem C2_mismatched_rank_dropped (frame : String) (u v w : PyVal)
    (hu : u.ndim ≠ 3) (hv : v.ndim ≠ 2) (hw : w.ndim ≠ 3) :
    processDataset frame "colors" u = ([], []) ∧
    processDataset frame "depth" v = ([], []) ∧
    processDataset frame "normals" w = ([], []) := by
  refine ⟨?_, ?_, ?_⟩
  · cases u with
    | arr a =>
      simp only [PyVal.ndim] at hu
      simp [processDataset, hu]
    | bytes l d => simp [processDataset]
    | obj a b cc dd => simp [processDataset]
  · cases v with
    | arr a =>
      simp only [PyVal.ndim] at hv
      simp [processDataset, hv]
    | bytes l d => simp [processDataset]
    | obj a b cc dd => simp [processDataset]
  · cases w with
    | arr a =>
      simp only [PyVal.ndim] at hw
      simp [processDataset, hw]
    | bytes l d => simp [processDataset]
    | obj a b cc dd => simp [processDataset]

/-- C2 witness: the amended statement instantiated on a rank-2 array under
colors, a rank-3 array under depth, and a rank-2 array under normals —
each failing exactly its own guard. -/
theorem C2_mismatched_rank_dropped_witness :
    processDataset "7" "colors"
        (PyVal.arr ⟨[2, 2], Dtype.float64, [], true⟩) = ([], []) ∧
    processDataset "7" "depth"
        (PyVal.arr ⟨[1, 2, 3], Dtype.float64, [], true⟩) = ([], []) ∧
    processDataset "7" "normals"
        (PyVal.arr ⟨[2, 2], Dtype.float64, [], true⟩) = ([], []) :=
  C2_mismatched_rank_dropped "7"
    (PyVal.arr ⟨[2, 2], Dtype.float64, [], true⟩)
    (PyVal.arr ⟨[1, 2, 3], Dtype.float64, [], true⟩)
    (PyVal.arr ⟨[2, 2], Dtype.float64, [], true⟩)
    (by decide) (by decide) (by decide)

/-- C3, counterexample: on a missing input directory the run does not
fail at all: the file glob returns no matches, the loop body never runs,
and the summary count zero is reported. This refutes the claim that the
run fails with DirectoryNotFound when the input directory does not
exist. -/
theorem C3_counterexample :
    missingDir.dirExists = false ∧
    runExtract missingDir = ⟨[], none, some 0⟩ :=
  ⟨rfl, rfl⟩

/-- C3, amended: a missing input directory is indistinguishable from an
existing empty one: both produce zero frame outputs, no error of any
kind, and a reported count of zero. The code never raises a
DirectoryNotFound condition. -/
theorem C3_missing_dir_not_error (d : InputDir) (hd : d.dirExists = false)
    (d2 : InputDir) (hd2 : d2.containers = []) :
    runExtract d = ⟨[], none, some 0⟩ ∧ runExtract d2 = ⟨[], none, some 0⟩ := by
  constructor
  · simp [runExtract, globHdf5, hd, runGo]
  · simp [runExtract, globHdf5, hd2, runGo]

/-- C3 witness: the amended statement instantiated on a concrete missing
directory and a concrete existing empty directory. -/
theorem C3_missing_dir_not_error_witness :
    runExtract ⟨false, [goodContainer]⟩ = ⟨[], none, some 0⟩ ∧
    runExtract ⟨true, []⟩ = ⟨[], none, some 0⟩ :=
  C3_missing_dir_not_error ⟨false, [goodContainer]⟩ rfl ⟨true, []⟩ rfl

lemma castU16_of_natCast {n : Nat} (h : n ≤ 65535) :
    castU16 (FVal.finite (n : ℚ)) = n := by
  have h0 : (0 : ℚ) ≤ (n : ℚ) := by positivity
  have h1 : ((n : ℚ)) ≤ 65535 := by
    have : ((n : ℚ)) ≤ ((65535 : Nat) : ℚ) := by exact_mod_cast h
    simpa using this
  have := castU16_finite_eq h0 h1
  have hfl : ⌊((n : ℚ))⌋ = (n : Int) := Int.floor_natCast n
  omega

/-- C4: the depth encoder replaces the special values, clips to
[0, 65.535], scales by 1000 and truncates to 16 bits; consequently every
stored value is at most 65535, every input at least 65.535 maps to
exactly 65535, NaN maps to exactly 0, and the metadata entry depth_scale
with value exactly 1/1000 is injected alongside the artifact filename. -/
theorem C4_depth_encoding (x : FVal) (q : ℚ) (hq : (65.535 : ℚ) ≤ q)
    (frame : String) (a : NpArray) (h2 : a.shape.length = 2) :
    depthPixel x ≤ 65535 ∧
    depthPixel (FVal.finite q) = 65535 ∧
    depthPixel FVal.nan = 0 ∧
    (("depth_scale", Json.num (FVal.finite (1/1000))) ∈
      (processDataset frame "depth" (PyVal.arr a)).2) ∧
    (processDataset frame "depth" (PyVal.arr a)).1 =
      [⟨"depth_" ++ frame ++ ".png", a.data.map depthPixel⟩] := by
  refine ⟨depthPixel_le x, ?_, ?_, ?_, ?_⟩
  · have hclip : clipDepth (nanToNum (FVal.finite q)) = 65.535 := by
      simp only [nanToNum, clipDepth]
      rw [max_eq_left (le_trans (by norm_num) hq), min_eq_right hq]
    have hmul : (65.535 : ℚ) * 1000 = ((65535 : Nat) : ℚ) := by norm_num
    simp only [depthPixel, hclip, hmul]
    exact castU16_of_natCast le_rfl
  · have hclip : clipDepth (nanToNum FVal.nan) = 0 := by
      simp only [nanToNum, clipDepth]
      norm_num
    have hmul : (0 : ℚ) * 1000 = ((0 : Nat) : ℚ) := by norm_num
    simp only [depthPixel, hclip, hmul]
    exact castU16_of_natCast (by omega)
  · have hv : (0.001 : ℚ) = 1/1000 := by norm_num
    rw [← hv]
    simp [processDataset, h2]
  · simp [processDataset, h2]

/-- C4 witness: the statement instantiated at input 100 (≥ 65.535) and a
concrete rank-2 depth array. -/
theorem C4_depth_encoding_witness :
    depthPixel (FVal.finite 200) ≤ 65535 ∧
    depthPixel (FVal.finite 100) = 65535 ∧
    depthPixel FVal.nan = 0 ∧
    (("depth_scale", Json.num (FVal.finite (1/1000))) ∈
      (processDataset "4" "depth"
        (PyVal.arr ⟨[1, 1], Dtype.float32, [FVal.finite 100], true⟩)).2) ∧
    (processDataset "4" "depth"
        (PyVal.arr ⟨[1, 1], Dtype.float32, [FVal.finite 100], true⟩)).1 =
      [⟨"depth_" ++ "4" ++ ".png",
        (⟨[1, 1], Dtype.float32, [FVal.finite 100], true⟩ : NpArray).data.map
          depthPixel⟩] :=
  C4_depth_encoding (FVal.finite 200) 100 (by norm_num) "4"
    ⟨[1, 1], Dtype.float32, [FVal.finite 100], true⟩ (by decide)

/-- C5: a rank-3 colors dataset already of uint8 dtype is emitted with
pixel values identical to the stored ones (identity passthrough), while
any other dtype takes the scaled path whose effect on a normalized value
q in [0, 1] is exactly floor(q * 255), with truncation and no rounding
correction. -/
theorem C5_color_encoding (a : NpArray) (hu : a.dtype = Dtype.uint8)
    (hwf : ∀ x ∈ a.data, ∃ n : Nat, x = FVal.finite (n : ℚ) ∧ n < 256)
    (b : NpArray) (hb : b.dtype ≠ Dtype.uint8)
    (q : ℚ) (h0 : 0 ≤ q) (h1 : q ≤ 1) :
    (colorEncode a).map (fun n : Nat => FVal.finite (n : ℚ)) = a.data ∧
    colorEncode b = b.data.map colorPixelScaled ∧
    ((colorPixelScaled (FVal.finite q) : Nat) : ℤ) = ⌊q * 255⌋ := by
  refine ⟨?_, ?_, ?_⟩
  · rw [colorEncode, if_pos hu, List.map_map]
    conv_rhs => rw [← List.map_id a.data]
    refine List.map_congr_left ?_
    intro x hx
    obtain ⟨n, rfl, hn⟩ := hwf x hx
    simp [Function.comp, castU8_of_natCast hn]
  · rw [colorEncode, if_neg hb]
  · have hr : colorPixelScaled (FVal.finite q) = castU8 (FVal.finite (q * 255)) := rfl
    rw [hr]
    exact castU8_finite_eq (by positivity) (by nlinarith)

/-- C5 witness: the statement instantiated on a concrete uint8 array and
the normalized value 1/2. -/
theorem C5_color_encoding_witness :
    ((colorEncode ⟨[1, 1, 2], Dtype.uint8,
        [FVal.finite 7, FVal.finite 255], true⟩).map
      (fun n : Nat => FVal.finite (n : ℚ))) =
      (⟨[1, 1, 2], Dtype.uint8, [FVal.finite 7, FVal.finite 255], true⟩ :
        NpArray).data ∧
    colorEncode ⟨[1, 1, 1], Dtype.float32, [FVal.finite (1/2)], true⟩ =
      (⟨[1, 1, 1], Dtype.float32, [FVal.finite (1/2)], true⟩ :
        NpArray).data.map colorPixelScaled ∧
    ((colorPixelScaled (FVal.finite (1/2)) : Nat) : ℤ) = ⌊(1/2 : ℚ) * 255⌋ :=
  C5_color_encoding ⟨[1, 1, 2], Dtype.uint8,
      [FVal.finite 7, FVal.finite 255], true⟩ rfl
    (by
      intro x hx
      simp only [List.mem_cons, List.not_mem_nil, or_false] at hx
      rcases hx with h | h
      · exact ⟨7, by rw [h]; norm_num, by omega⟩
      · exact ⟨255, by rw [h]; norm_num, by omega⟩)
    ⟨[1, 1, 1], Dtype.float32, [FVal.finite (1/2)], true⟩ (by decide)
    (1/2) (by norm_num) (by norm_num)

lemma normalPixel_eq {v : ℚ} (hl : -1 ≤ v) (hr : v ≤ 1) :
    ((normalPixel (FVal.finite v) : Nat) : ℤ) = ⌊(v + 1) * 127.5⌋ := by
  have hv : normalPixel (FVal.finite v) = castU8 (FVal.finite ((v + 1) * 127.5)) := rfl
  rw [hv]
  exact castU8_finite_eq (by nlinarith) (by nlinarith)

/-- C6: for components v in [-1, 1] the normals encoder computes exactly
floor((v + 1) * 127.5) with no prior clipping; it maps -1 to 0 and 1 to
255, and is monotonic in v on [-1, 1]. -/
theorem C6_normal_encoding (v w : ℚ) (hlv : -1 ≤ v) (hrv : v ≤ 1)
    (hlw : -1 ≤ w) (hrw : w ≤ 1) (hvw : v ≤ w) :
    ((normalPixel (FVal.finite v) : Nat) : ℤ) = ⌊(v + 1) * 127.5⌋ ∧
    normalPixel (FVal.finite (-1)) = 0 ∧
    normalPixel (FVal.finite 1) = 255 ∧
    normalPixel (FVal.finite v) ≤ normalPixel (FVal.finite w) := by
  refine ⟨normalPixel_eq hlv hrv, ?_, ?_, ?_⟩
  · have h := normalPixel_eq (v := -1) (by norm_num) (by norm_num)
    have hz : ((-1 : ℚ) + 1) * 127.5 = ((0 : Nat) : ℚ) := by norm_num
    rw [hz, Int.floor_natCast] at h
    omega
  · have h := normalPixel_eq (v := 1) (by norm_num) (by norm_num)
    have hz : ((1 : ℚ) + 1) * 127.5 = ((255 : Nat) : ℚ) := by norm_num
    rw [hz, Int.floor_natCast] at h
    omega
  · have h1 := normalPixel_eq hlv hrv
    have h2 := normalPixel_eq hlw hrw
    have hm : ⌊(v + 1) * 127.5⌋ ≤ ⌊(w + 1) * (127.5 : ℚ)⌋ :=
      Int.floor_le_floor (by nlinarith)
    omega

/-- C6 witness: the statement instantiated at v = -1/2 and w = 1/2. -/
theorem C6_normal_encoding_witness :
    ((normalPixel (FVal.finite (-1/2)) : Nat) : ℤ) = ⌊((-1/2 : ℚ) + 1) * 127.5⌋ ∧
    normalPixel (FVal.finite (-1)) = 0 ∧
    normalPixel (FVal.finite 1) = 255 ∧
    normalPixel (FVal.finite (-1/2)) ≤ normalPixel (FVal.finite (1/2)) :=
  C6_normal_encoding (-1/2) (1/2) (by norm_num) (by norm_num)
    (by norm_num) (by norm_num) (by norm_num)

/-- C7: an auxiliary numeric array with fewer than 100 elements whose
tolist conversion succeeds is stored as the nested plain list of its
elements, and flattening that nested list recovers exactly the elements
(the round trip); an array with 100 or more elements, or whose conversion
fails, is stored as the descriptor string carrying its shape tuple and
dtype name, never the raw data. -/
theorem C7_generic_array (a : NpArray) (hsmall : a.size < 100)
    (hok : a.tolistOk = true) (hlen : a.data.length = a.size)
    (b : NpArray) (hb : ¬(b.size < 100 ∧ b.tolistOk = true)) :
    serializeGeneric (PyVal.arr a) = nestJson a.shape a.data ∧
    flatJson (nestJson a.shape a.data) = a.data.map Json.num ∧
    serializeGeneric (PyVal.arr b) =
      Json.str ("Array shape: " ++ shapeRepr b.shape ++ ", dtype: " ++
        dtypeName b.dtype) := by
  refine ⟨?_, flatJson_nest a.shape a.data hlen, ?_⟩
  · simp [serializeGeneric, hsmall, NpArray.tolist, hok]
  · by_cases hbs : b.size < 100
    · have hbt : b.tolistOk = false := by
        cases hbt2 : b.tolistOk
        · rfl
        · exact absurd ⟨hbs, hbt2⟩ hb
      simp [serializeGeneric, hbs, NpArray.tolist, hbt, descriptor]
    · simp [serializeGeneric, hbs, descriptor]

/-- C7 witness: the statement instantiated on a small 2 by 2 array and a
100-element array. -/
theorem C7_generic_array_witness :
    serializeGeneric (PyVal.arr ⟨[2, 2], Dtype.float64,
        [FVal.finite 1, FVal.finite 2, FVal.finite 3, FVal.finite 4], true⟩) =
      nestJson [2, 2]
        [FVal.finite 1, FVal.finite 2, FVal.finite 3, FVal.finite 4] ∧
    flatJson (nestJson [2, 2]
        [FVal.finite 1, FVal.finite 2, FVal.finite 3, FVal.finite 4]) =
      [FVal.finite 1, FVal.finite 2, FVal.finite 3,
        FVal.finite 4].map Json.num ∧
    serializeGeneric (PyVal.arr ⟨[10, 10], Dtype.float32, [], true⟩) =
      Json.str ("Array shape: " ++ shapeRepr [10, 10] ++ ", dtype: " ++
        dtypeName Dtype.float32) :=
  C7_generic_array
    ⟨[2, 2], Dtype.float64,
      [FVal.finite 1, FVal.finite 2, FVal.finite 3, FVal.finite 4], true⟩
    (by decide) (by decide) (by decide)
    ⟨[10, 10], Dtype.float32, [], true⟩ (by decide)

/-- C8: for every auxiliary dataset, whatever the form of its value, the
generic serializer ladder produces a metadata value (it is a total
function whose final rung is the str fallback), and the frame's metadata
document always receives an entry for that dataset; processing of the
frame never fails on an awkward auxiliary value. -/
theorem C8_aux_never_fails (c : Container) (k : String) (v : PyVal)
    (hin : (k, v) ∈ c.datasets) (h1 : k ≠ "colors") (h2 : k ≠ "depth")
    (h3 : k ≠ "normals") :
    (k, serializeGeneric v) ∈ (processContainer c).metadata :=
  mem_metadata_of_aux c k v hin h1 h2 h3

/-- A container holding one exotic auxiliary value: no tolist attribute,
not JSON serializable, only a str representation. -/
def exoticContainer : Container :=
  ⟨"9.hdf5", true, [("weird", PyVal.obj false none none "odd")]⟩

/-- C8 witness: the statement instantiated on an exotic value that every
rung except the final str fallback rejects. -/
theorem C8_aux_never_fails_witness :
    ("weird", serializeGeneric (PyVal.obj false none none "odd")) ∈
      (processContainer exoticContainer).metadata :=
  C8_aux_never_fails exoticContainer "weird" (PyVal.obj false none none "odd")
    (List.mem_singleton.mpr rfl) (by decide) (by decide) (by decide)

/-- C9, counterexample: a directory whose first container is corrupt and
whose second is readable. The run produces no frame outputs at all — in
particular the second, perfectly good container is never processed — and
ends with the uncaught read error. This refutes the claim that a read
failure is isolated to its own frame and that the run continues with the
remaining containers. -/
theorem C9_counterexample :
    (runExtract dirC9).outputs = [] ∧
    (runExtract dirC9).err = some (RunError.containerReadError "0.hdf5") ∧
    goodContainer ∈ dirC9.containers :=
  ⟨rfl, rfl, by simp [dirC9]⟩

/-- C9, amended: the h5py open error of an unreadable container is not
caught anywhere, so the first unreadable container aborts the whole run:
the containers before it are processed normally, the unreadable one
raises, and every container after it is left unprocessed. -/
theorem C9_read_error_aborts (pre post : List Container) (c : Container)
    (hpre : ∀ x ∈ pre, x.readable = true) (hc : c.readable = false) :
    runGo (pre ++ c :: post) =
      (pre.map processContainer,
       some (RunError.containerReadError c.filename)) := by
  induction pre with
  | nil => simp [runGo, hc]
  | cons p rest ih =>
    have hp : p.readable = true := hpre p (by simp)
    simp only [List.cons_append, runGo, hp, if_true, List.append_eq]
    rw [ih (fun x hx => hpre x (by simp [hx]))]
    simp

/-- C9 witness: the amended statement instantiated on one good container
followed by a corrupt one and one more behind it. -/
theorem C9_read_error_aborts_witness :
    runGo [goodContainer, corruptContainer, exoticContainer] =
      ([goodContainer].map processContainer,
       some (RunError.containerReadError "0.hdf5")) :=
  C9_read_error_aborts [goodContainer] [exoticContainer] corruptContainer
    (by decide) (by decide)

/-- C10: a rank-3 colors dataset of any dtype other than uint8 is sent
through the scaled path, which multiplies each element by 255, truncates
toward zero and reduces modulo 256; out-of-range inputs therefore wrap
rather than saturate: 2.0 encodes to 254 and the in-range integer 200
encodes to 56. -/
theorem C10_color_wrap (b : NpArray) (hb : b.dtype ≠ Dtype.uint8)
    (h3 : b.shape.length = 3) (frame : String) (q : ℚ) :
    (processDataset frame "colors" (PyVal.arr b)).1 =
      [⟨"rgb_" ++ frame ++ ".png", b.data.map colorPixelScaled⟩] ∧
    colorPixelScaled (FVal.finite q) = ((fptrunc (q * 255)) % 256).toNat ∧
    colorPixelScaled (FVal.finite 2) = 254 ∧
    colorPixelScaled (FVal.finite 200) = 56 := by
  refine ⟨?_, rfl, ?_, ?_⟩
  · simp [processDataset, h3, colorEncode, hb]
  · have hr : colorPixelScaled (FVal.finite 2) =
        ((fptrunc ((2 : ℚ) * 255)) % 256).toNat := rfl
    have hm : (2 : ℚ) * 255 = ((510 : Nat) : ℚ) := by norm_num
    rw [hr, hm, fptrunc_of_nonneg (by positivity), Int.floor_natCast]
    decide
  · have hr : colorPixelScaled (FVal.finite 200) =
        ((fptrunc ((200 : ℚ) * 255)) % 256).toNat := rfl
    have hm : (200 : ℚ) * 255 = ((51000 : Nat) : ℚ) := by norm_num
    rw [hr, hm, fptrunc_of_nonneg (by positivity), Int.floor_natCast]
    decide

/-- C10 witness: the statement instantiated on a concrete uint16 array
and the value 3/2. -/
theorem C10_color_wrap_witness :
    (processDataset "5" "colors"
        (PyVal.arr ⟨[1, 1, 1], Dtype.uint16, [FVal.finite 200], true⟩)).1 =
      [⟨"rgb_" ++ "5" ++ ".png",
        (⟨[1, 1, 1], Dtype.uint16, [FVal.finite 200], true⟩ :
          NpArray).data.map colorPixelScaled⟩] ∧
    colorPixelScaled (FVal.finite (3/2)) =
      ((fptrunc ((3/2 : ℚ) * 255)) % 256).toNat ∧
    colorPixelScaled (FVal.finite 2) = 254 ∧
    colorPixelScaled (FVal.finite 200) = 56 :=
  C10_color_wrap ⟨[1, 1, 1], Dtype.uint16, [FVal.finite 200], true⟩
    (by decide) (by decide) "5" (3/2)

end BlenderGen
